import Mathlib

/-!
Verification development for `src/process-upload-r2.py`.

Strings are modelled as `List Char`.  The SQLite table `upload_status` is
modelled as a list of rows, with `INSERT OR REPLACE` on the primary key
`card_id` modelled by removing every row carrying that key and appending the
fresh row.  The image codec, the blob-storage wire protocol and the SQLite
storage engine are external collaborators: the success or failure of a
conversion or an upload enters the model as a boolean oracle attached to each
item, exactly at the collaborator boundary the script observes (`convert_png_to_jpg`
returning `None`, `upload_to_r2` returning `False`).
-/

namespace R2

/-! ## Regex fragments

The script uses two regular expressions:
`re.match(r'^pregen_(\d+)-(\d+)_\d+_$', stem)` (case-sensitive, line 210)
inside `process_filename_for_upload`, and the default CLI filter
`pregen_\d+-\d+_\d+_\.png$` compiled with `re.IGNORECASE` (lines 136, 459)
and applied with `.match` (anchored at the start).  In both patterns every
`\d+` is immediately followed by a non-digit literal, so the greedy match of
`\d+` never backtracks: it always consumes exactly the maximal leading digit
run.  The fragments below implement that deterministic reading directly. -/

/-- Consume a literal fragment of a pattern, case-sensitively. -/
def dropLit : List Char → List Char → Option (List Char)
  | [], xs => some xs
  | _ :: _, [] => none
  | c :: cs, x :: xs => if x = c then dropLit cs xs else none

/-- Consume a literal fragment of a pattern under `re.IGNORECASE`. -/
def dropLitCI : List Char → List Char → Option (List Char)
  | [], xs => some xs
  | _ :: _, [] => none
  | c :: cs, x :: xs => if x.toLower = c.toLower then dropLitCI cs xs else none

/-- Split off the maximal leading run of decimal digits (`\d+`). -/
def splitDigits : List Char → List Char × List Char
  | [] => ([], [])
  | x :: xs =>
    if x.isDigit then
      let p := splitDigits xs
      (x :: p.1, p.2)
    else ([], x :: xs)

/-- Python's `$` outside MULTILINE mode: it matches at the very end of the
string, or just before a newline that ends the string. -/
def matchDollarEnd : List Char → Bool
  | [] => true
  | [c] => c = '\n'
  | _ :: _ :: _ => false

/-- The capture groups `(file_id, seed)` of
`re.match(r'^pregen_(\d+)-(\d+)_\d+_$', filename)` at source lines 210-212,
or `none` when the stem does not match. -/
def parse_pregen (stem : List Char) : Option (List Char × List Char) :=
  (dropLit "pregen_".data stem).bind fun r1 =>
    let p1 := splitDigits r1
    if p1.1 = [] then none else
    (dropLit "-".data p1.2).bind fun r3 =>
      let p2 := splitDigits r3
      if p2.1 = [] then none else
      (dropLit "_".data p2.2).bind fun r5 =>
        let p3 := splitDigits r5
        if p3.1 = [] then none else
        (dropLit "_".data p3.2).bind fun r7 =>
          if matchDollarEnd r7 then some (p1.1, p2.1) else none

/-- The default `--pattern` of `main` (source line 459),
`pregen_\d+-\d+_\d+_\.png$`, compiled with `re.IGNORECASE` and applied with
`re.match` to the full file name (line 164). -/
def default_pattern_match (name : List Char) : Bool :=
  ((dropLitCI "pregen_".data name).bind fun r1 =>
    let p1 := splitDigits r1
    if p1.1 = [] then none else
    (dropLitCI "-".data p1.2).bind fun r3 =>
      let p2 := splitDigits r3
      if p2.1 = [] then none else
      (dropLitCI "_".data p2.2).bind fun r5 =>
        let p3 := splitDigits r5
        if p3.1 = [] then none else
        (dropLitCI "_".data p3.2).bind fun r6 =>
          (dropLitCI ".png".data r6).bind fun r7 =>
            if matchDollarEnd r7 then some () else none).isSome

/-! ## Identity extraction -/

/-- The result of `ImageProcessor.process_filename_for_upload` on a file stem,
together with the spec-level `matched` flag recording which branch was taken. -/
structure ImageIdentity where
  processedFilename : List Char
  metadata : List (List Char × List Char)
  matched : Bool
deriving DecidableEq

/-- `ImageProcessor.process_filename_for_upload` (source lines 196-228): on a
regex match, `{file_id}.jpg` with `{'seed': seed}`; otherwise the fallback
`{stem}.jpg` with empty metadata.  A total function: the fallback branch never
raises. -/
def process_filename_for_upload (stem : List Char) : ImageIdentity :=
  match parse_pregen stem with
  | some (fid, seed) => ⟨fid ++ ".jpg".data, [("seed".data, seed)], true⟩
  | none => ⟨stem ++ ".jpg".data, [], false⟩

/-- The characters of `".jpg"`. -/
def jpgChars : List Char := ['.', 'j', 'p', 'g']

/-- Python `str.replace('.jpg', '')` with empty replacement: remove every
occurrence of `.jpg`, scanning left to right without overlap. -/
def stripJpgAll : List Char → List Char
  | '.' :: 'j' :: 'p' :: 'g' :: rest => stripJpgAll rest
  | x :: xs => x :: stripJpgAll xs
  | [] => []

/-- Whether `.jpg` occurs as a contiguous substring. -/
def containsJpg : List Char → Bool
  | [] => false
  | x :: xs => jpgChars.isPrefixOf (x :: xs) || containsJpg xs

/-- `card_id = processed_filename.replace('.jpg', '')` (source line 299): the
key used for the ledger lookup, the skip decision and the deferred batch
ledger write. -/
def card_id_of (stem : List Char) : List Char :=
  stripJpgAll (process_filename_for_upload stem).processedFilename

/-- A stem of the exact conforming shape `pregen_<d1>-<d2>_<d3>_`. -/
def pregenStem (d1 d2 d3 : List Char) : List Char :=
  "pregen_".data ++ (d1 ++ '-' :: (d2 ++ '_' :: (d3 ++ ['_'])))

/-- A file name of the shape `pregen_<d1>-<d2>_<d3>_.png` accepted by the
default CLI pattern. -/
def pregenPngName (d1 d2 d3 : List Char) : List Char :=
  "pregen_".data ++ (d1 ++ '-' :: (d2 ++ '_' :: (d3 ++ ('_' :: ".png".data))))

/-! ## Upload ledger

`UploadTracker` (source lines 38-108) keeps the SQLite table
`upload_status(card_id TEXT PRIMARY KEY, status TEXT, timestamp TEXT)` in a
file beside the script and serializes every operation behind `self.db_lock`.
It is modelled as a list of rows; the primary key makes `INSERT OR REPLACE`
delete any conflicting row before inserting.  Timestamps
(`datetime.now().isoformat()`) are abstract values, modelled as naturals. -/

structure LedgerRow where
  card_id : List Char
  status : List Char
  timestamp : Nat
deriving DecidableEq

/-- The only status the script ever writes. -/
def uploadedStatus : List Char := "uploaded".data

/-- `UploadTracker.is_uploaded` (lines 61-69): true iff a row for `card_id`
with status `'uploaded'` exists. -/
def is_uploaded (db : List LedgerRow) (cid : List Char) : Bool :=
  db.any fun r => r.card_id == cid && r.status == uploadedStatus

/-- `UploadTracker.mark_uploaded` (lines 71-79): `INSERT OR REPLACE` of one
row with the given timestamp. -/
def mark_uploaded (db : List LedgerRow) (cid : List Char) (ts : Nat) : List LedgerRow :=
  (db.filter fun r => !(r.card_id == cid)) ++ [⟨cid, uploadedStatus, ts⟩]

/-- `UploadTracker.batch_mark_uploaded` (lines 81-94): early return on empty
input, otherwise one `INSERT OR REPLACE` per id, all with one timestamp. -/
def batch_mark_uploaded (db : List LedgerRow) (cids : List (List Char)) (ts : Nat) :
    List LedgerRow :=
  if cids.isEmpty then db
  else cids.foldl (fun d c => mark_uploaded d c ts) db

/-- `UploadTracker.batch_check_uploaded` (lines 96-108): the ids of the rows
whose `card_id` is among `cids` with status `'uploaded'`, paired with the
number of SQL queries issued (0 on the empty-input early return, 1 otherwise). -/
def batch_check_uploaded (db : List LedgerRow) (cids : List (List Char)) :
    List (List Char) × Nat :=
  if cids.isEmpty then ([], 0)
  else
    (((db.filter fun r => cids.contains r.card_id && r.status == uploadedStatus).map
        fun r => r.card_id), 1)

/-! ## Per-item pipeline

`ImageProcessor.process_single_image` (source lines 285-361).  The
configuration a run shares across items and the per-item collaborator
outcomes: `convertOk` is whether `convert_png_to_jpg` returns a path rather
than `None` (line 312), `uploadOk` whether `upload_to_r2` returns `True`
(line 324).  `s3Client` is whether `self.s3_client` was initialized
(constructor lines 142-152: only when endpoint, access key and secret key are
all present); `trackerEnabled` is `track_uploads` (always `True` from `main`,
line 510). -/

structure GlobalCfg where
  s3Client : Bool
  trackerEnabled : Bool
  cleanupOnSuccess : Bool
  keepConverted : Bool
deriving DecidableEq

structure ItemSpec where
  stem : List Char
  convertOk : Bool
  uploadOk : Bool
deriving DecidableEq

/-- The per-item `result` dict (lines 287-294). -/
structure ItemResult where
  processed : Nat
  converted : Nat
  uploaded : Nat
  cleaned : Nat
  errors : List (List Char)
  card_id : Option (List Char)
deriving DecidableEq

/-- Observable side effects of one `process_single_image` call:
how many conversion attempts (`Image.open`, line 177) and remote-store calls
(`put_object`, line 257) were made, whether the converted file was deleted on
the upload-failure path (lines 331-332), and how many `cleanup_files` calls
were made (line 344). -/
structure ItemEffects where
  convertCalls : Nat
  uploadCalls : Nat
  jpgDeletedOnUploadFailure : Bool
  cleanupCalls : Nat
deriving DecidableEq

/-- The error string at line 317, `f"Conversion failed: {png_path.name}"`. -/
def convErrMsg (stem : List Char) : List Char :=
  "Conversion failed: ".data ++ stem ++ ".png".data

/-- The error string at line 329, `f"Upload failed: {jpg_path.name}"`. -/
def uploadErrMsg (stem : List Char) : List Char :=
  "Upload failed: ".data ++ (process_filename_for_upload stem).processedFilename

/-- `ImageProcessor.process_single_image` (lines 285-361), branch by branch:
ledger skip check (303-307, only when a tracker exists), conversion (312-318),
upload if a remote client is configured (323-335) with deletion of the
converted file on failure (331-332), dry-run accounting when no client is
configured (337-340), and cleanup (342-348).  The `except` clause (354-359)
has no counterpart: the model's steps are total. -/
def process_single_image (cfg : GlobalCfg) (db : List LedgerRow) (it : ItemSpec) :
    ItemResult × ItemEffects :=
  let cid := card_id_of it.stem
  if cfg.trackerEnabled && is_uploaded db cid then
    (⟨0, 0, 0, 0, [], some cid⟩, ⟨0, 0, false, 0⟩)
  else if !it.convertOk then
    (⟨1, 0, 0, 0, [convErrMsg it.stem], some cid⟩, ⟨1, 0, false, 0⟩)
  else if cfg.s3Client && !it.uploadOk then
    (⟨1, 1, 0, 0, [uploadErrMsg it.stem], some cid⟩, ⟨1, 1, true, 0⟩)
  else if cfg.cleanupOnSuccess then
    (⟨1, 1, 1, 1, [], some cid⟩, ⟨1, if cfg.s3Client then 1 else 0, false, 1⟩)
  else
    (⟨1, 1, 1, 0, [], some cid⟩, ⟨1, if cfg.s3Client then 1 else 0, false, 0⟩)

/-! ## Batch orchestration

`ImageProcessor.process_images` (lines 363-420).  Results are collected in
completion order by `as_completed`; every aggregation below (sums of the four
counters, the set of collected card ids, emptiness of the error list) is
order-insensitive, so the model folds in submission order. -/

/-- The batch `results` dict (lines 365-371). -/
structure BatchResult where
  processed : Nat
  converted : Nat
  uploaded : Nat
  cleaned : Nat
  errors : List (List Char)
deriving DecidableEq

def emptyBatchResult : BatchResult := ⟨0, 0, 0, 0, []⟩

/-- Result aggregation, lines 396-400. -/
def aggregate (acc : BatchResult) (r : ItemResult) : BatchResult :=
  ⟨acc.processed + r.processed, acc.converted + r.converted,
   acc.uploaded + r.uploaded, acc.cleaned + r.cleaned, acc.errors ++ r.errors⟩

/-- Python truthiness of `result['card_id']` at line 403: a non-`None`,
non-empty string. -/
def truthyCardId : Option (List Char) → Bool
  | some s => !s.isEmpty
  | none => false

/-- Collection of ids for the deferred batch ledger write, line 403:
`result['uploaded'] > 0 and result['card_id'] and self.tracker and self.s3_client`. -/
def collectCard (cfg : GlobalCfg) (acc : List (List Char)) (r : ItemResult) :
    List (List Char) :=
  if decide (0 < r.uploaded) && truthyCardId r.card_id && cfg.trackerEnabled &&
      cfg.s3Client then
    acc ++ [r.card_id.getD []]
  else acc

/-- The per-item results of one run.  Every item is checked against the
ledger as it stood at the start of the run: on this code path no per-item
ledger write exists (`mark_uploaded` is never called by
`process_single_image`), only the single deferred batch write below. -/
def batchItemResults (cfg : GlobalCfg) (db : List LedgerRow) (items : List ItemSpec) :
    List ItemResult :=
  items.map fun it => (process_single_image cfg db it).1

/-- `successfully_uploaded_cards` accumulated at line 404. -/
def batchCards (cfg : GlobalCfg) (db : List LedgerRow) (items : List ItemSpec) :
    List (List Char) :=
  (batchItemResults cfg db items).foldl (collectCard cfg) []

/-- `ImageProcessor.process_images`: run every discovered item, aggregate the
outcomes, then perform the single deferred `batch_mark_uploaded`
(lines 412-418) guarded by `if successfully_uploaded_cards and self.tracker`.
Returns the batch summary and the final ledger.  An empty item list
reproduces the early return of lines 374-375. -/
def process_images (cfg : GlobalCfg) (db : List LedgerRow) (items : List ItemSpec)
    (ts : Nat) : BatchResult × List LedgerRow :=
  ((batchItemResults cfg db items).foldl aggregate emptyBatchResult,
   if !(batchCards cfg db items).isEmpty && cfg.trackerEnabled then
     batch_mark_uploaded db (batchCards cfg db items) ts
   else db)

/-! ## CLI entry point

`main` (lines 456-530).  Credential resolution (CLI flag, config file,
environment, in that order, lines 484-487) is abstracted to whether each
resolved value is truthy; argument parsing itself is external glue. -/

structure MainArgs where
  dryRun : Bool
  hasEndpoint : Bool
  hasAccessKey : Bool
  hasSecretKey : Bool
  hasBucket : Bool
  noCleanup : Bool
  keepConverted : Bool
deriving DecidableEq

/-- The `ImageProcessor` configuration `main` builds (lines 502-512):
credentials are passed as `None` under `--dry-run`, so a client exists iff
the run is not a dry run (validation has already required the credentials);
`track_uploads` is always `True`. -/
def configOf (a : MainArgs) : GlobalCfg :=
  ⟨!a.dryRun, true, !a.noCleanup, a.keepConverted⟩

/-- Exit computation at line 525: `0 if not results['errors'] else 1`. -/
def exit_code (r : BatchResult) : Nat :=
  if r.errors.isEmpty then 0 else 1

/-- `main`'s exit code: credential validation (lines 489-495), bucket
validation (lines 497-499), then one `process_images` run and the error-count
test (line 525). -/
def main_exit (a : MainArgs) (db : List LedgerRow) (items : List ItemSpec) (ts : Nat) :
    Nat :=
  if !a.dryRun && !(a.hasEndpoint && a.hasAccessKey && a.hasSecretKey) then 1
  else if !a.hasBucket then 1
  else exit_code (process_images (configOf a) db items ts).1

/-- The claim's reading of a valid configuration (spec §6, Exit code): in a
real run all three credentials resolve, and in every run a bucket is set.
Stated from the spec's words, to be compared with `main_exit`. -/
def specValidConfig (a : MainArgs) : Prop :=
  (a.dryRun = true ∨
    (a.hasEndpoint = true ∧ a.hasAccessKey = true ∧ a.hasSecretKey = true)) ∧
  a.hasBucket = true

instance (a : MainArgs) : Decidable (specValidConfig a) := by
  unfold specValidConfig; infer_instance

/-! ### Parsing lemmas -/

lemma dropLit_append (lit r : List Char) : dropLit lit (lit ++ r) = some r := by
  induction lit with
  | nil => rfl
  | cons c cs ih => simp [dropLit, ih]

lemma dropLitCI_append (lit r : List Char) : dropLitCI lit (lit ++ r) = some r := by
  induction lit with
  | nil => rfl
  | cons c cs ih => simp [dropLitCI, ih]

lemma splitDigits_append_sep (d : List Char) (sep : Char) (rest : List Char)
    (hd : ∀ c ∈ d, c.isDigit = true) (hs : sep.isDigit = false) :
    splitDigits (d ++ sep :: rest) = (d, sep :: rest) := by
  induction d with
  | nil => simp [splitDigits, hs]
  | cons x xs ih =>
    have hx : x.isDigit = true := hd x (by simp)
    have := ih (fun c hc => hd c (by simp [hc]))
    simp [splitDigits, hx, this]

lemma parse_pregen_conforming (d1 d2 d3 : List Char)
    (h1 : d1 ≠ []) (h2 : d2 ≠ []) (h3 : d3 ≠ [])
    (hd1 : ∀ c ∈ d1, c.isDigit = true) (hd2 : ∀ c ∈ d2, c.isDigit = true)
    (hd3 : ∀ c ∈ d3, c.isDigit = true) :
    parse_pregen (pregenStem d1 d2 d3) = some (d1, d2) := by
  unfold parse_pregen pregenStem
  rw [dropLit_append]
  simp only [Option.some_bind]
  rw [splitDigits_append_sep d1 '-' _ hd1 (by decide)]
  rw [if_neg h1]
  have e2 : ('-' :: (d2 ++ '_' :: (d3 ++ ['_']))) = "-".data ++ (d2 ++ '_' :: (d3 ++ ['_'])) := rfl
  rw [e2, dropLit_append]
  simp only [Option.some_bind]
  rw [splitDigits_append_sep d2 '_' _ hd2 (by decide)]
  rw [if_neg h2]
  have e3 : ('_' :: (d3 ++ ['_'])) = "_".data ++ (d3 ++ ['_']) := rfl
  rw [e3, dropLit_append]
  simp only [Option.some_bind]
  rw [splitDigits_append_sep d3 '_' [] hd3 (by decide)]
  rw [if_neg h3]
  simp [dropLit, matchDollarEnd]

lemma default_pattern_match_conforming (d1 d2 d3 : List Char)
    (h1 : d1 ≠ []) (h2 : d2 ≠ []) (h3 : d3 ≠ [])
    (hd1 : ∀ c ∈ d1, c.isDigit = true) (hd2 : ∀ c ∈ d2, c.isDigit = true)
    (hd3 : ∀ c ∈ d3, c.isDigit = true) :
    default_pattern_match (pregenPngName d1 d2 d3) = true := by
  unfold default_pattern_match pregenPngName
  rw [dropLitCI_append]
  simp only [Option.some_bind]
  rw [splitDigits_append_sep d1 '-' _ hd1 (by decide)]
  rw [if_neg h1]
  have e2 : ('-' :: (d2 ++ '_' :: (d3 ++ ('_' :: ".png".data)))) =
      "-".data ++ (d2 ++ '_' :: (d3 ++ ('_' :: ".png".data))) := rfl
  rw [e2, dropLitCI_append]
  simp only [Option.some_bind]
  rw [splitDigits_append_sep d2 '_' _ hd2 (by decide)]
  rw [if_neg h2]
  have e3 : ('_' :: (d3 ++ ('_' :: ".png".data))) =
      "_".data ++ (d3 ++ ('_' :: ".png".data)) := rfl
  rw [e3, dropLitCI_append]
  simp only [Option.some_bind]
  rw [splitDigits_append_sep d3 '_' ".png".data hd3 (by decide)]
  rw [if_neg h3]
  simp [dropLitCI, matchDollarEnd]

/-! ### Lemmas about `.jpg` removal -/

/-- If an occurrence of `.jpg` started at the head of `u ++ jpgChars` and `u`
is non-empty, that occurrence lies entirely inside `u`: no proper suffix of
`.jpg` is also one of its proper prefixes, so an occurrence cannot straddle
the boundary. -/
lemma isPrefixOf_of_head_occurrence (x : Char) (xs rest : List Char)
    (heq : x :: (xs ++ jpgChars) = '.' :: 'j' :: 'p' :: 'g' :: rest) :
    jpgChars.isPrefixOf (x :: xs) = true := by
  injection heq with hx htl
  subst hx
  rcases xs with _ | ⟨y, ys⟩
  · simp only [List.nil_append, jpgChars] at htl
    injection htl with ha _
    exact absurd ha (by decide)
  · injection htl with hy htl2
    subst hy
    rcases ys with _ | ⟨z, zs⟩
    · simp only [List.nil_append, jpgChars] at htl2
      injection htl2 with ha _
      exact absurd ha (by decide)
    · injection htl2 with hz htl3
      subst hz
      rcases zs with _ | ⟨w, ws⟩
      · simp only [List.nil_append, jpgChars] at htl3
        injection htl3 with ha _
        exact absurd ha (by decide)
      · injection htl3 with hw _
        subst hw
        simp [jpgChars, List.isPrefixOf]

/-- Appending `.jpg` to a string that nowhere contains `.jpg` and removing
every `.jpg` occurrence gives the string back. -/
lemma stripJpgAll_append_jpg (u : List Char) (h : containsJpg u = false) :
    stripJpgAll (u ++ jpgChars) = u := by
  induction u with
  | nil => rfl
  | cons x xs ih =>
    simp only [containsJpg, Bool.or_eq_false_iff] at h
    obtain ⟨hpre, hxs⟩ := h
    rw [List.cons_append, stripJpgAll.eq_def]
    split
    · rename_i rest heq
      have hb := isPrefixOf_of_head_occurrence x xs rest heq
      rw [hpre] at hb
      exact Bool.noConfusion hb
    · rename_i x' xs' heq
      injection heq with hh ht
      subst hh
      subst ht
      rw [ih hxs]
    · rename_i heq
      exact absurd heq (by simp)

/-- A string of decimal digits contains no `.jpg`. -/
lemma containsJpg_of_digits (l : List Char) (h : ∀ c ∈ l, c.isDigit = true) :
    containsJpg l = false := by
  induction l with
  | nil => rfl
  | cons x xs ih =>
    have hx : x.isDigit = true := h x (by simp)
    have hne : ('.' == x) = false := by
      refine beq_eq_false_iff_ne.mpr fun he => ?_
      rw [← he] at hx
      exact absurd hx (by decide)
    have hpre : jpgChars.isPrefixOf (x :: xs) = false := by
      simp [jpgChars, List.isPrefixOf, hne]
    simp [containsJpg, hpre, ih fun c hc => h c (by simp [hc])]

lemma stripJpgAll_digits_jpg (l : List Char) (h : ∀ c ∈ l, c.isDigit = true) :
    stripJpgAll (l ++ ".jpg".data) = l := by
  have e : ".jpg".data = jpgChars := rfl
  rw [e]
  exact stripJpgAll_append_jpg l (containsJpg_of_digits l h)

/-! ### Batch lemmas -/

lemma collectCard_foldl_no_s3 (cfg : GlobalCfg) (h : cfg.s3Client = false) :
    ∀ (rs : List ItemResult) (acc : List (List Char)),
      rs.foldl (collectCard cfg) acc = acc := by
  intro rs
  induction rs with
  | nil => intro acc; rfl
  | cons r rs ih =>
    intro acc
    rw [List.foldl_cons]
    have hc : collectCard cfg acc r = acc := by simp [collectCard, h]
    rw [hc, ih]

lemma collectCard_foldl_uploaded_zero (cfg : GlobalCfg) :
    ∀ (rs : List ItemResult) (acc : List (List Char)),
      (∀ r ∈ rs, r.uploaded = 0) → rs.foldl (collectCard cfg) acc = acc := by
  intro rs
  induction rs with
  | nil => intro acc _; rfl
  | cons r rs ih =>
    intro acc hall
    rw [List.foldl_cons]
    have hr : r.uploaded = 0 := hall r (by simp)
    have hc : collectCard cfg acc r = acc := by simp [collectCard, hr]
    rw [hc]
    exact ih acc fun x hx => hall x (by simp [hx])

lemma foldl_aggregate_errors :
    ∀ (rs : List ItemResult) (acc : BatchResult),
      (rs.foldl aggregate acc).errors = acc.errors ++ (rs.map ItemResult.errors).flatten := by
  intro rs
  induction rs with
  | nil => intro acc; simp
  | cons r rs ih =>
    intro acc
    rw [List.foldl_cons, ih]
    simp [aggregate]

lemma uploaded_zero_of_upload_failed (cfg : GlobalCfg) (db : List LedgerRow) (it : ItemSpec)
    (hs3 : cfg.s3Client = true) (hup : it.uploadOk = false) :
    (process_single_image cfg db it).1.uploaded = 0 := by
  unfold process_single_image
  simp only [hs3, hup]
  split_ifs <;> simp_all

lemma batch_errors_ne_nil_of_mem (cfg : GlobalCfg) (db : List LedgerRow) (ts : Nat)
    (it : ItemSpec) (items : List ItemSpec) (hmem : it ∈ items)
    (hne : (process_single_image cfg db it).1.errors ≠ []) :
    (process_images cfg db items ts).1.errors ≠ [] := by
  unfold process_images
  rw [foldl_aggregate_errors]
  simp only [emptyBatchResult, List.nil_append]
  intro hnil
  rw [List.flatten_eq_nil_iff] at hnil
  refine hne (hnil _ ?_)
  exact List.mem_map_of_mem _ (List.mem_map_of_mem _ hmem)

lemma exit_code_eq_zero_iff (r : BatchResult) : exit_code r = 0 ↔ r.errors = [] := by
  unfold exit_code
  by_cases h : r.errors = [] <;> simp [h]

lemma exit_code_eq_one_iff (r : BatchResult) : exit_code r = 1 ↔ r.errors ≠ [] := by
  unfold exit_code
  by_cases h : r.errors = [] <;> simp [h]

/-! ## Claims -/

/-- C1: for a file whose identity already has a ledger entry with status
`'uploaded'` before the run, `process_single_image` makes no remote-store
call, makes no conversion attempt, and contributes 0 to the batch `processed`
count: the item is skipped at lines 303-307. -/
theorem c1_already_uploaded_skipped (cfg : GlobalCfg) (db : List LedgerRow) (it : ItemSpec)
    (htr : cfg.trackerEnabled = true)
    (hup : is_uploaded db (card_id_of it.stem) = true) :
    (process_single_image cfg db it).2.uploadCalls = 0 ∧
    (process_single_image cfg db it).2.convertCalls = 0 ∧
    (process_single_image cfg db it).1.processed = 0 := by
  unfold process_single_image
  simp [htr, hup]

theorem c1_already_uploaded_skipped_witness :
    is_uploaded [⟨"alpha".data, "uploaded".data, 7⟩] (card_id_of "alpha".data) = true ∧
    ((process_single_image ⟨true, true, true, false⟩ [⟨"alpha".data, "uploaded".data, 7⟩]
        ⟨"alpha".data, true, true⟩).2.uploadCalls = 0 ∧
      (process_single_image ⟨true, true, true, false⟩ [⟨"alpha".data, "uploaded".data, 7⟩]
        ⟨"alpha".data, true, true⟩).2.convertCalls = 0 ∧
      (process_single_image ⟨true, true, true, false⟩ [⟨"alpha".data, "uploaded".data, 7⟩]
        ⟨"alpha".data, true, true⟩).1.processed = 0) :=
  ⟨by decide,
   c1_already_uploaded_skipped ⟨true, true, true, false⟩
     [⟨"alpha".data, "uploaded".data, 7⟩] ⟨"alpha".data, true, true⟩ rfl (by decide)⟩

/-- C2: identity extraction on a conforming stem
`pregen_<d1>-<d2>_<d3>_` is deterministic (it is a function of the stem) and
yields the upload name `<d1>.jpg`, metadata exactly `{seed: <d2>}`,
`matched = true`; the derived `card_id` equals the first digit group. -/
theorem c2_conforming_identity (d1 d2 d3 : List Char)
    (h1 : d1 ≠ []) (h2 : d2 ≠ []) (h3 : d3 ≠ [])
    (hd1 : ∀ c ∈ d1, c.isDigit = true) (hd2 : ∀ c ∈ d2, c.isDigit = true)
    (hd3 : ∀ c ∈ d3, c.isDigit = true) :
    process_filename_for_upload (pregenStem d1 d2 d3) =
      ⟨d1 ++ ".jpg".data, [("seed".data, d2)], true⟩ ∧
    card_id_of (pregenStem d1 d2 d3) = d1 := by
  have hp := parse_pregen_conforming d1 d2 d3 h1 h2 h3 hd1 hd2 hd3
  constructor
  · simp [process_filename_for_upload, hp]
  · simp [card_id_of, process_filename_for_upload, hp, stripJpgAll_digits_jpg d1 hd1]

theorem c2_conforming_identity_witness :
    process_filename_for_upload
        (pregenStem "1418510004060".data "890774523686991".data "00001".data) =
      ⟨"1418510004060".data ++ ".jpg".data,
       [("seed".data, "890774523686991".data)], true⟩ ∧
    card_id_of (pregenStem "1418510004060".data "890774523686991".data "00001".data) =
      "1418510004060".data :=
  c2_conforming_identity "1418510004060".data "890774523686991".data "00001".data
    (by decide) (by decide) (by decide) (by decide) (by decide) (by decide)

/-- C3 counterexample: the stem `x.jpg` (from a file named `x.jpg.png`) is
non-conforming, and extraction returns `matched = false` with empty metadata,
but the key the pipeline uses for the ledger is
`(stem + '.jpg').replace('.jpg', '') = "x"`, not the stem: `str.replace`
removes every occurrence of `.jpg`, not only the appended suffix. -/
theorem c3_ledger_key_counterexample :
    parse_pregen "x.jpg".data = none ∧
    (process_filename_for_upload "x.jpg".data).matched = false ∧
    (process_filename_for_upload "x.jpg".data).metadata = [] ∧
    card_id_of "x.jpg".data = "x".data ∧
    card_id_of "x.jpg".data ≠ "x.jpg".data := by
  refine ⟨by decide, by decide, by decide, by decide, by decide⟩

/-- C3 amended: on a non-conforming stem, extraction never raises (a total
function) and returns `matched = false`, empty metadata and the upload name
`stem + '.jpg'`; the ledger key equals the stem whenever `.jpg` does not
occur inside the stem (in general it is the stem with every `.jpg`
occurrence removed). -/
theorem c3_nonconforming_identity_amended (stem : List Char)
    (hnm : parse_pregen stem = none) :
    (process_filename_for_upload stem).matched = false ∧
    (process_filename_for_upload stem).metadata = [] ∧
    (process_filename_for_upload stem).processedFilename = stem ++ ".jpg".data ∧
    (containsJpg stem = false → card_id_of stem = stem) := by
  refine ⟨by simp [process_filename_for_upload, hnm], by simp [process_filename_for_upload, hnm],
    by simp [process_filename_for_upload, hnm], fun h => ?_⟩
  unfold card_id_of
  simp only [process_filename_for_upload, hnm]
  exact stripJpgAll_append_jpg stem h

theorem c3_nonconforming_identity_amended_witness :
    (process_filename_for_upload "hello".data).matched = false ∧
    (process_filename_for_upload "hello".data).metadata = [] ∧
    (process_filename_for_upload "hello".data).processedFilename =
      "hello".data ++ ".jpg".data ∧
    (containsJpg "hello".data = false → card_id_of "hello".data = "hello".data) :=
  c3_nonconforming_identity_amended "hello".data (by decide)

/-- C4: with no remote client configured (dry run), an item that is not
skipped and converts successfully is counted `uploaded = 1` with no
remote-store call, and the final batch ledger write leaves the ledger
unchanged: the collection condition at line 403 requires `self.s3_client`,
and no per-item write exists. -/
theorem c4_dry_run (cfg : GlobalCfg) (db : List LedgerRow) (it : ItemSpec)
    (items : List ItemSpec) (ts : Nat) (hs3 : cfg.s3Client = false) :
    ((cfg.trackerEnabled && is_uploaded db (card_id_of it.stem)) = false →
      it.convertOk = true →
      (process_single_image cfg db it).1.uploaded = 1 ∧
      (process_single_image cfg db it).2.uploadCalls = 0) ∧
    (process_images cfg db items ts).2 = db := by
  constructor
  · intro hskip hconv
    unfold process_single_image
    simp only [hskip, hconv, hs3]
    split_ifs <;> simp_all
  · unfold process_images batchCards
    rw [collectCard_foldl_no_s3 cfg hs3]
    simp

theorem c4_dry_run_witness :
    ((process_single_image ⟨false, true, true, false⟩ [] ⟨"alpha".data, true, true⟩).1.uploaded = 1 ∧
      (process_single_image ⟨false, true, true, false⟩ [] ⟨"alpha".data, true, true⟩).2.uploadCalls = 0) ∧
    (process_images ⟨false, true, true, false⟩ [] [⟨"alpha".data, true, true⟩] 0).2 = [] :=
  ⟨(c4_dry_run ⟨false, true, true, false⟩ [] ⟨"alpha".data, true, true⟩
      [⟨"alpha".data, true, true⟩] 0 rfl).1 (by decide) rfl,
   (c4_dry_run ⟨false, true, true, false⟩ [] ⟨"alpha".data, true, true⟩
      [⟨"alpha".data, true, true⟩] 0 rfl).2⟩

/-- C5: when the remote upload of a non-skipped, successfully converted item
fails, the converted file is deleted before the per-item step returns, the
item's error string is recorded and `uploaded` stays 0; any batch containing
such an item has a non-empty error list, hence exit code 1; and in a run
where every upload fails the ledger is unchanged. -/
theorem c5_upload_failure (cfg : GlobalCfg) (db : List LedgerRow) (it : ItemSpec) (ts : Nat)
    (hs3 : cfg.s3Client = true) (hconv : it.convertOk = true) (hupf : it.uploadOk = false)
    (hskip : (cfg.trackerEnabled && is_uploaded db (card_id_of it.stem)) = false) :
    (process_single_image cfg db it).2.jpgDeletedOnUploadFailure = true ∧
    (process_single_image cfg db it).1.errors = [uploadErrMsg it.stem] ∧
    (process_single_image cfg db it).1.uploaded = 0 ∧
    (∀ items : List ItemSpec, it ∈ items →
      (process_images cfg db items ts).1.errors ≠ [] ∧
      exit_code (process_images cfg db items ts).1 = 1) ∧
    (∀ items : List ItemSpec, (∀ j ∈ items, j.uploadOk = false) →
      (process_images cfg db items ts).2 = db) := by
  have hpe : process_single_image cfg db it =
      (⟨1, 1, 0, 0, [uploadErrMsg it.stem], some (card_id_of it.stem)⟩, ⟨1, 1, true, 0⟩) := by
    unfold process_single_image
    simp [hskip, hconv, hs3, hupf]
  refine ⟨by rw [hpe], by rw [hpe], by rw [hpe], ?_, ?_⟩
  · intro items hmem
    have herr : (process_single_image cfg db it).1.errors ≠ [] := by rw [hpe]; simp
    have h1 := batch_errors_ne_nil_of_mem cfg db ts it items hmem herr
    exact ⟨h1, (exit_code_eq_one_iff _).mpr h1⟩
  · intro items hall
    unfold process_images batchCards
    rw [collectCard_foldl_uploaded_zero cfg _ _ ?_]
    · simp
    · intro r hr
      obtain ⟨j, hj, rfl⟩ := List.mem_map.mp hr
      exact uploaded_zero_of_upload_failed cfg db j hs3 (hall j hj)

theorem c5_upload_failure_witness :
    (process_single_image ⟨true, true, true, false⟩ []
        ⟨"alpha".data, true, false⟩).2.jpgDeletedOnUploadFailure = true ∧
    (process_images ⟨true, true, true, false⟩ [] [⟨"alpha".data, true, false⟩] 0).1.errors ≠ [] ∧
    exit_code (process_images ⟨true, true, true, false⟩ [] [⟨"alpha".data, true, false⟩] 0).1 = 1 ∧
    (process_images ⟨true, true, true, false⟩ [] [⟨"alpha".data, true, false⟩] 0).2 = [] := by
  have h := c5_upload_failure ⟨true, true, true, false⟩ [] ⟨"alpha".data, true, false⟩ 0
    rfl rfl rfl (by decide)
  exact ⟨h.1, (h.2.2.2.1 _ (by simp)).1, (h.2.2.2.1 _ (by simp)).2,
    h.2.2.2.2 _ (by simp)⟩

/-- C6: `mark_uploaded` is an idempotent upsert: after marking the same id
twice, exactly one row for that id remains, with status `'uploaded'` and the
timestamp of the most recent call.  It is a total function: re-insertion
never errors. -/
theorem c6_mark_uploaded_idempotent (db : List LedgerRow) (cid : List Char) (ts1 ts2 : Nat) :
    (mark_uploaded (mark_uploaded db cid ts1) cid ts2).filter
        (fun r => r.card_id == cid) = [⟨cid, uploadedStatus, ts2⟩] := by
  unfold mark_uploaded
  rw [List.filter_append, List.filter_append]
  simp [List.filter_filter]

/-- C7: `batch_check_uploaded` returns exactly the ids of its input that the
ledger reports as uploaded, and on empty input it returns the empty set
having issued no query. -/
theorem c7_batch_check_uploaded (db : List LedgerRow) (cids : List (List Char)) :
    (∀ x : List Char,
      x ∈ (batch_check_uploaded db cids).1 ↔ x ∈ cids ∧ is_uploaded db x = true) ∧
    batch_check_uploaded db ([] : List (List Char)) = ([], 0) := by
  refine ⟨fun x => ?_, rfl⟩
  unfold batch_check_uploaded
  by_cases hc : cids.isEmpty
  · rw [if_pos hc]
    rw [List.isEmpty_iff] at hc
    subst hc
    simp
  · rw [if_neg hc]
    simp only [List.mem_map, List.mem_filter, Bool.and_eq_true]
    constructor
    · rintro ⟨r, ⟨hrdb, hin, hst⟩, rfl⟩
      refine ⟨by simpa using hin, ?_⟩
      unfold is_uploaded
      rw [List.any_eq_true]
      exact ⟨r, hrdb, by simp [hst]⟩
    · rintro ⟨hx, hupl⟩
      unfold is_uploaded at hupl
      rw [List.any_eq_true] at hupl
      obtain ⟨r, hrdb, hr⟩ := hupl
      rw [Bool.and_eq_true, beq_iff_eq] at hr
      exact ⟨r, ⟨hrdb, by simpa [hr.1] using hx, by simp [hr.2]⟩, hr.1⟩

/-- C8: the exit code is 0 iff configuration validation passed and the batch
recorded zero errors, and 1 iff not: in particular credential or bucket
validation failure yields 1 before any item is processed. -/
theorem c8_exit_code_iff (a : MainArgs) (db : List LedgerRow) (items : List ItemSpec)
    (ts : Nat) :
    (main_exit a db items ts = 0 ↔
      specValidConfig a ∧ (process_images (configOf a) db items ts).1.errors = []) ∧
    (main_exit a db items ts = 1 ↔
      ¬(specValidConfig a ∧ (process_images (configOf a) db items ts).1.errors = [])) := by
  obtain ⟨dr, he, ha, hs, hb, nc, kc⟩ := a
  cases dr <;> cases he <;> cases ha <;> cases hs <;> cases hb <;>
    simp [main_exit, specValidConfig, exit_code_eq_zero_iff, exit_code_eq_one_iff]

/-- C9 counterexample: `random.png` ends in `.png` but the default
`--pattern` of `main` (line 459) rejects it: the default is the pregen
pattern, not a match-any-PNG filter. -/
theorem c9_default_pattern_counterexample :
    default_pattern_match "random.png".data = false ∧
    List.isSuffixOf ".png".data "random.png".data = true := by
  refine ⟨by decide, by decide⟩

/-- C9 amended: when `--pattern` is not given the filter is
`pregen_\d+-\d+_\d+_\.png$` with `re.IGNORECASE`: it accepts every filename
of the form `pregen_<digits>-<digits>_<digits>_.png`, but not every filename
ending in `.png`. -/
theorem c9_default_pattern_amended (d1 d2 d3 : List Char)
    (h1 : d1 ≠ []) (h2 : d2 ≠ []) (h3 : d3 ≠ [])
    (hd1 : ∀ c ∈ d1, c.isDigit = true) (hd2 : ∀ c ∈ d2, c.isDigit = true)
    (hd3 : ∀ c ∈ d3, c.isDigit = true) :
    default_pattern_match (pregenPngName d1 d2 d3) = true :=
  default_pattern_match_conforming d1 d2 d3 h1 h2 h3 hd1 hd2 hd3

theorem c9_default_pattern_amended_witness :
    default_pattern_match
      (pregenPngName "1418510004060".data "890774523686991".data "00001".data) = true :=
  c9_default_pattern_amended "1418510004060".data "890774523686991".data "00001".data
    (by decide) (by decide) (by decide) (by decide) (by decide) (by decide)

/-- C10: every per-item outcome satisfies the monotone staging invariant:
each counter is 0 or 1 and `cleaned ≤ uploaded ≤ converted ≤ processed`. -/
theorem c10_monotone_counters (cfg : GlobalCfg) (db : List LedgerRow) (it : ItemSpec) :
    (process_single_image cfg db it).1.processed ≤ 1 ∧
    (process_single_image cfg db it).1.converted ≤ 1 ∧
    (process_single_image cfg db it).1.uploaded ≤ 1 ∧
    (process_single_image cfg db it).1.cleaned ≤ 1 ∧
    (process_single_image cfg db it).1.cleaned ≤ (process_single_image cfg db it).1.uploaded ∧
    (process_single_image cfg db it).1.uploaded ≤ (process_single_image cfg db it).1.converted ∧
    (process_single_image cfg db it).1.converted ≤ (process_single_image cfg db it).1.processed := by
  cases htr : cfg.trackerEnabled <;>
  cases hu : is_uploaded db (card_id_of it.stem) <;>
  cases hcv : it.convertOk <;>
  cases hs3 : cfg.s3Client <;>
  cases hup : it.uploadOk <;>
  cases hcl : cfg.cleanupOnSuccess <;>
    simp [process_single_image, htr, hu, hcv, hs3, hup, hcl]

end R2
